import Mathlib

/-!
Verification of the defi-derivatives-protocol repository.

The fixed-point math library (src/programs/defi-derivatives-protocol/src/math.rs)
and the option lifecycle engine (src/programs/defi-derivatives-protocol/src/lib.rs)
are shallowly embedded below.

Conventions of the embedding:
* Rust `u64` and `u128` values are `Nat`, with arithmetic wrapped explicitly
  modulo `2 ^ 64` resp. `2 ^ 128` at every operation where overflow or
  underflow is reachable for in-range inputs (the release-profile two's
  complement wrapping semantics of the deployed program).
* Rust division by zero always aborts the transaction, in every build
  profile; a computation that can hit it is embedded as an `Option`, with
  `none` for the abort.
* Anchor instruction handlers return `Result`; a failed Solana transaction
  reverts every account write, so the runner functions (`runExercise`,
  `runCreate`) pair the handler with that rollback: on an error the
  observable post-state is the pre-state.
-/

namespace DDP

/-- Fixed-point scaling factor, `SCALE` in math.rs (six decimal places). -/
def SCALE : Nat := 1000000

/-- Modulus of Rust `u128` arithmetic. -/
def M128 : Nat := 2 ^ 128

/-- Modulus of Rust `u64` arithmetic. -/
def M64 : Nat := 2 ^ 64

/-- Wrapping `u128` subtraction `a - b` (two's complement), for `a b < M128`.
In the source every subtraction is the plain `-` operator on `u128`, which
wraps in release builds. -/
def wsub (a b : Nat) : Nat := (a + (M128 - b)) % M128

/-- Rust `u128` division `a / b`: aborts (`none`) when the divisor is zero. -/
def chkDiv (a b : Nat) : Option Nat := if b = 0 then none else some (a / b)

/-- `ln_fp` from math.rs: first-order series `x_fp - SCALE`.  The `u128`
subtraction silently wraps when `x_fp < SCALE`; the subsequent
`(delta * SCALE) / SCALE` then wraps again on the huge `delta`. -/
def lnFp (x : Nat) : Nat := wsub x SCALE * SCALE % M128 / SCALE

/-- `exp_fp` from math.rs: truncated series `1 + x + x^2/2! + x^3/3!` in
fixed point, every product and the final sum wrapping in `u128`. -/
def expFp (x : Nat) : Nat :=
  let x2 := x * x % M128 / SCALE
  let x3 := x2 * x % M128 / SCALE
  (SCALE + x + x2 / 2 + x3 / 6) % M128

/-- The `while y < z` loop of `sqrt_fp` in math.rs, with `w = x_fp * SCALE`
(wrapped).  Each iteration sets `z := y` and `y := (w / y + y) / 2`; the
division `w / y` aborts when `y = 0`.  The loop measure is `z`, which the
loop guard forces to decrease strictly. -/
def sqrtLoop (w z y : Nat) : Option Nat :=
  if h : y < z then
    if y = 0 then none
    else sqrtLoop w y ((w / y + y) % M128 / 2)
  else some z
termination_by z
decreasing_by exact h

/-- `sqrt_fp` from math.rs: Babylonian method, `sqrt_fp 0 = 0`, otherwise
start from `z = x_fp`, `y = (x_fp + SCALE) / 2` (the addition wraps in
`u128`) and run the loop. -/
def sqrtFp (x : Nat) : Option Nat :=
  if x = 0 then some 0
  else sqrtLoop (x * SCALE % M128) x ((x + SCALE) % M128 / 2)

/-- `SQRT_2_PI` from math.rs: `sqrt(2 * pi) * SCALE`, rounded. -/
def SQRT_2_PI : Nat := 2506628

/-- `standard_normal_cdf` from math.rs: linear form
`SCALE/2 + d_fp * SCALE / SQRT_2_PI` (the product wrapping in `u128`),
then the source's two clamp branches.  The `nd_fp < 0` branch is kept
verbatim; it is dead for an unsigned value. -/
def standardNormalCdf (d : Nat) : Nat :=
  let nd := SCALE / 2 + d * SCALE % M128 / SQRT_2_PI
  if nd > SCALE then SCALE
  else if nd < 0 then 0
  else nd

/-- Seconds-to-years conversion of `black_scholes_approx`:
`t_fp = t * SCALE / 31_536_000`. -/
def tFp (t : Nat) : Nat := t * SCALE / 31536000

/-- `r_t = (r_fp * t_fp) / SCALE` from `black_scholes_approx`. -/
def rT (r t : Nat) : Nat := r * tFp t / SCALE

/-- `e_minus_rt = exp_fp(SCALE - r_t)` from `black_scholes_approx`
(the source comments it as `e^{-r * t}`); `SCALE - r_t` is a wrapping
`u128` subtraction. -/
def eMinusRt (r t : Nat) : Nat := expFp (wsub SCALE (rT r t))

/-- `sigma_sqrt_t = (sigma_fp * sqrt_fp(t_fp)) / SCALE` from
`black_scholes_approx`; `none` when the square root aborts. -/
def sigmaSqrtT (sigma t : Nat) : Option Nat :=
  (sqrtFp (tFp t)).map fun sq => sigma * sq / SCALE

/-- Body of `black_scholes_approx` from math.rs, up to and including
`c_fp / SCALE` (still a `u128` value, before the final `as u64` cast).
Arguments are `u64` values.  The ratio division `(s_fp * SCALE) / k_fp`
aborts when the strike is zero (it is the first fallible step the source
executes); after the `sigma_sqrt_t == 0` guard, `d1`, `d2` and the premium
are computed with wrapping `u128` arithmetic exactly as in the source. -/
def premiumFp (s k t r sigma : Nat) : Option Nat :=
  let sFp := s * SCALE
  let kFp := k * SCALE
  let tF := tFp t
  (chkDiv (sFp * SCALE) kFp).bind fun sOverK =>
  (sigmaSqrtT sigma t).bind fun sst =>
  if sst = 0 then some 0
  else
    let lnSOverK := lnFp sOverK
    let sigmaSquared := sigma * sigma / SCALE
    let halfSigmaSquared := sigmaSquared / 2
    let rPlusHalfSigmaSquared := r + halfSigmaSquared
    let numerator := (lnSOverK + rPlusHalfSigmaSquared * tF % M128 / SCALE) % M128
    let d1 := numerator * SCALE % M128 / sst
    let d2 := wsub d1 sst
    let nd1 := standardNormalCdf d1
    let nd2 := standardNormalCdf d2
    let sNd1 := sFp * nd1 / SCALE
    let kEMinusRt := kFp * eMinusRt r t % M128 / SCALE
    let kEMinusRtNd2 := kEMinusRt * nd2 % M128 / SCALE
    let cFp := if sNd1 ≥ kEMinusRtNd2 then sNd1 - kEMinusRtNd2 else 0
    some (cFp / SCALE)

/-- `black_scholes_approx` from math.rs: the body above followed by the
final `(c_fp / SCALE) as u64` narrowing cast. -/
def blackScholesApprox (s k t r sigma : Nat) : Option Nat :=
  (premiumFp s k t r sigma).map fun cOut => cOut % M64

/-! ## Option lifecycle engine (lib.rs, errors.rs) -/

/-- `ProtocolError` from errors.rs, verbatim: it declares exactly these
four variants. -/
inductive ProtocolError where
  | optionAlreadyExercised
  | optionExpired
  | invalidExpiration
  | insufficientFunds
deriving DecidableEq, Repr

/-- Outcome of a failed instruction: a `ProtocolError` returned by the
handler, a failure propagated from the SPL token program by
`token::transfer(..)?`, or a Rust abort (panic / division by zero) inside
the handler. -/
inductive TxError where
  | protocol (e : ProtocolError)
  | tokenFailure
  | trapped
deriving DecidableEq, Repr

/-- `OptionContract` account from lib.rs.  Public keys are opaque
identifiers. -/
structure OptionContract where
  creator : Nat
  underlying_asset_mint : Nat
  strike_price : Nat
  expiration : Int
  is_exercised : Bool
  option_price : Nat
  amount : Nat
  bump : Nat
deriving DecidableEq, Repr

/-- The four token-account balances touched by `exercise_option`. -/
structure ExLedger where
  exerciserStrike : Nat
  creatorStrike : Nat
  optionUnderlying : Nat
  exerciserUnderlying : Nat
deriving DecidableEq, Repr

/-- An SPL `token::transfer` of `amt` from a source balance to a
destination balance: it checked-subtracts the source and checked-adds the
destination in `u64`, failing on shortfall or overflow. -/
def splTransfer (src dst amt : Nat) : Option (Nat × Nat) :=
  if amt ≤ src ∧ dst + amt < M64 then some (src - amt, dst + amt) else none

/-- `exercise_option` from lib.rs: reject if already exercised, then if
`now > expiration`; then transfer the strike consideration from the
exerciser to the creator, then the escrowed underlying to the exerciser,
and only then set `is_exercised := true`. -/
def exerciseOption (c : OptionContract) (L : ExLedger) (now : Int) :
    Except TxError (OptionContract × ExLedger) :=
  if c.is_exercised then .error (.protocol .optionAlreadyExercised)
  else if now > c.expiration then .error (.protocol .optionExpired)
  else
    match splTransfer L.exerciserStrike L.creatorStrike c.strike_price with
    | none => .error .tokenFailure
    | some (es, cs) =>
      match splTransfer L.optionUnderlying L.exerciserUnderlying c.amount with
      | none => .error .tokenFailure
      | some (ou, eu) =>
          .ok ({ c with is_exercised := true },
               { exerciserStrike := es, creatorStrike := cs,
                 optionUnderlying := ou, exerciserUnderlying := eu })

/-- The observable effect of an `exercise_option` transaction: on an error
the Solana runtime reverts every account write, so the post-state is the
pre-state together with the error. -/
def runExercise (c : OptionContract) (L : ExLedger) (now : Int) :
    (OptionContract × ExLedger) × Option TxError :=
  match exerciseOption c L now with
  | .ok s => (s, none)
  | .error e => ((c, L), some e)

/-- Success flags of a sequence of `exercise_option` transactions against
one contract; each call supplies its own clock reading and external
ledger snapshot, and the contract account evolves through the calls. -/
def successCount (c : OptionContract) : List (ExLedger × Int) → Nat
  | [] => 0
  | (L, now) :: rest =>
      (if (runExercise c L now).2 = none then 1 else 0) +
        successCount (runExercise c L now).1.1 rest

/-- `OptionParams` from lib.rs. -/
structure OptionParams where
  underlying_asset_mint : Nat
  strike_asset_mint : Nat
  strike_price : Nat
  expiration : Int
  current_price : Nat
  risk_free_rate : Nat
  volatility : Nat
  amount : Nat
deriving DecidableEq, Repr

/-- `create_option` from lib.rs: reject when `expiration <= now`; price
the option (the `u64` cast of the `i64` difference `expiration - now` is
its two's complement residue); build the record; escrow `amount` from the
creator's underlying account into the option's underlying account.  The
PDA bump from `find_program_address` is opaque key hashing, passed in as a
parameter. -/
def createOption (p : OptionParams) (creator bump : Nat) (now : Int)
    (creatorBal escrowBal : Nat) : Except TxError (OptionContract × Nat × Nat) :=
  if p.expiration ≤ now then .error (.protocol .invalidExpiration)
  else
    match blackScholesApprox p.current_price p.strike_price
        ((p.expiration - now).emod (2 ^ 64)).toNat
        p.risk_free_rate p.volatility with
    | none => .error .trapped
    | some price =>
        match splTransfer creatorBal escrowBal p.amount with
        | none => .error .tokenFailure
        | some (cb, eb) =>
            .ok ({ creator := creator, underlying_asset_mint := p.underlying_asset_mint,
                   strike_price := p.strike_price, expiration := p.expiration,
                   is_exercised := false, option_price := price,
                   amount := p.amount, bump := bump }, cb, eb)

/-- The observable effect of a `create_option` transaction: on an error no
contract record is persisted and the balances are unchanged (transaction
revert). -/
def runCreate (p : OptionParams) (creator bump : Nat) (now : Int)
    (creatorBal escrowBal : Nat) :
    (Option OptionContract × Nat × Nat) × Option TxError :=
  match createOption p creator bump now creatorBal escrowBal with
  | .ok (c, cb, eb) => ((some c, cb, eb), none)
  | .error e => ((none, creatorBal, escrowBal), some e)

/-! ## Lifecycle lemmas -/

/-- An exercise call on an already-exercised contract fails with
`OptionAlreadyExercised` and changes nothing. -/
lemma runExercise_of_exercised (c : OptionContract) (L : ExLedger) (now : Int)
    (h : c.is_exercised = true) :
    runExercise c L now = ((c, L), some (.protocol .optionAlreadyExercised)) := by
  simp [runExercise, exerciseOption, h]

/-- Whenever `exercise_option` returns `Ok`, the returned contract is
flagged as exercised. -/
lemma exerciseOption_ok_flag (c : OptionContract) (L : ExLedger) (now : Int)
    (s : OptionContract × ExLedger) (hs : exerciseOption c L now = .ok s) :
    s.1.is_exercised = true := by
  unfold exerciseOption at hs
  split at hs
  · exact absurd hs (by simp)
  · split at hs
    · exact absurd hs (by simp)
    · split at hs
      · exact absurd hs (by simp)
      · split at hs
        · exact absurd hs (by simp)
        · cases hs; rfl

/-- A successful exercise call leaves the contract flagged as exercised. -/
lemma runExercise_success_flag (c : OptionContract) (L : ExLedger) (now : Int)
    (h : (runExercise c L now).2 = none) :
    (runExercise c L now).1.1.is_exercised = true := by
  unfold runExercise at h ⊢
  rcases hE : exerciseOption c L now with e | s
  · rw [hE] at h
    exact Option.noConfusion h
  · exact exerciseOption_ok_flag c L now s hE

/-- No exercise call on an already-exercised contract ever succeeds. -/
lemma successCount_of_exercised (c : OptionContract) (h : c.is_exercised = true)
    (reqs : List (ExLedger × Int)) : successCount c reqs = 0 := by
  induction reqs with
  | nil => rfl
  | cons hd tl ih =>
    obtain ⟨L, now⟩ := hd
    rw [successCount, runExercise_of_exercised c L now h]
    simpa using ih

/-- At most one call in any sequence of exercise calls succeeds. -/
lemma successCount_le_one (c : OptionContract) (reqs : List (ExLedger × Int)) :
    successCount c reqs ≤ 1 := by
  induction reqs generalizing c with
  | nil => simp [successCount]
  | cons hd tl ih =>
    obtain ⟨L, now⟩ := hd
    rw [successCount]
    by_cases hs : (runExercise c L now).2 = none
    · have hflag := runExercise_success_flag c L now hs
      have h0 := successCount_of_exercised _ hflag tl
      simp [hs, h0]
    · simpa [hs] using ih (runExercise c L now).1.1

/-! ## Claim theorems: lifecycle -/

/-- C1: `is_exercised` transitions false→true at most once; a call made
while `is_exercised = true` fails with `OptionAlreadyExercised` and leaves
the contract (and balances) unchanged; the flag never reverts to false;
and in any sequence of exercise calls on one contract — each call with its
own clock reading and ledger snapshot — at most one call succeeds. -/
theorem exercise_at_most_once :
    (∀ (c : OptionContract) (L : ExLedger) (now : Int), c.is_exercised = true →
      runExercise c L now = ((c, L), some (.protocol .optionAlreadyExercised))) ∧
    (∀ (c : OptionContract) (L : ExLedger) (now : Int), c.is_exercised = true →
      (runExercise c L now).1.1.is_exercised = true) ∧
    (∀ (c : OptionContract) (reqs : List (ExLedger × Int)), successCount c reqs ≤ 1) :=
  ⟨runExercise_of_exercised,
   fun c L now h => by rw [runExercise_of_exercised c L now h]; exact h,
   successCount_le_one⟩

/-- A concrete already-exercised contract. -/
def c1Contract : OptionContract :=
  { creator := 0, underlying_asset_mint := 0, strike_price := 5, expiration := 100,
    is_exercised := true, option_price := 0, amount := 1, bump := 0 }

/-- A concrete ledger with ample balances. -/
def c1Ledger : ExLedger :=
  { exerciserStrike := 10, creatorStrike := 0, optionUnderlying := 1,
    exerciserUnderlying := 0 }

theorem exercise_at_most_once_witness :
    c1Contract.is_exercised = true ∧
    runExercise c1Contract c1Ledger 5 =
      ((c1Contract, c1Ledger), some (.protocol .optionAlreadyExercised)) ∧
    successCount c1Contract [(c1Ledger, 5)] ≤ 1 :=
  ⟨rfl, exercise_at_most_once.1 c1Contract c1Ledger 5 rfl,
   exercise_at_most_once.2.2 c1Contract [(c1Ledger, 5)]⟩

/-- C2: if either leg of the exercise transfer fails, the whole
transaction fails, `is_exercised` stays false and no balance changes: the
observable post-state is exactly the pre-state.  (The two legs touch
disjoint accounts, so each leg's success is a predicate of the initial
ledger.) -/
theorem exercise_atomic_rollback (c : OptionContract) (L : ExLedger) (now : Int)
    (hex : c.is_exercised = false) (ht : ¬ now > c.expiration)
    (hfail : splTransfer L.exerciserStrike L.creatorStrike c.strike_price = none ∨
             splTransfer L.optionUnderlying L.exerciserUnderlying c.amount = none) :
    runExercise c L now = ((c, L), some .tokenFailure) ∧
    (runExercise c L now).1.1.is_exercised = false := by
  have hmain : runExercise c L now = ((c, L), some .tokenFailure) := by
    unfold runExercise exerciseOption
    rcases hfail with h1 | h2
    · simp [hex, ht, h1]
    · rcases htr : splTransfer L.exerciserStrike L.creatorStrike c.strike_price with
        _ | ⟨es, cs⟩
      · simp [hex, ht, htr]
      · simp [hex, ht, htr, h2]
  exact ⟨hmain, by rw [hmain]; exact hex⟩

/-- A concrete live contract whose strike leg must fail. -/
def c2Contract : OptionContract :=
  { creator := 0, underlying_asset_mint := 0, strike_price := 5, expiration := 100,
    is_exercised := false, option_price := 0, amount := 1, bump := 0 }

/-- A ledger where the exerciser holds only 3 < 5 strike units. -/
def c2Ledger : ExLedger :=
  { exerciserStrike := 3, creatorStrike := 0, optionUnderlying := 1,
    exerciserUnderlying := 0 }

theorem exercise_atomic_rollback_witness :
    splTransfer c2Ledger.exerciserStrike c2Ledger.creatorStrike
      c2Contract.strike_price = none ∧
    runExercise c2Contract c2Ledger 5 = ((c2Contract, c2Ledger), some .tokenFailure) :=
  ⟨by decide,
   (exercise_atomic_rollback c2Contract c2Ledger 5 rfl (by decide)
     (Or.inl (by decide))).1⟩

/-- C3 counterexample: on an expired contract that is already exercised,
`exercise_option` fails with `OptionAlreadyExercised`, not `OptionExpired`,
because the source checks `is_exercised` before the clock. -/
def c3Contract : OptionContract :=
  { creator := 0, underlying_asset_mint := 0, strike_price := 5, expiration := 0,
    is_exercised := true, option_price := 0, amount := 1, bump := 0 }

/-- Ledger for the C3 scenarios. -/
def c3Ledger : ExLedger :=
  { exerciserStrike := 10, creatorStrike := 0, optionUnderlying := 1,
    exerciserUnderlying := 0 }

theorem expired_error_counterexample :
    (1 : Int) > c3Contract.expiration ∧
    (runExercise c3Contract c3Ledger 1).2 = some (.protocol .optionAlreadyExercised) ∧
    TxError.protocol .optionAlreadyExercised ≠ TxError.protocol .optionExpired := by
  exact ⟨by decide, by decide, by decide⟩

/-- C3 (amended): past expiration an exercise call always fails and changes
nothing, with `OptionExpired` when the contract is unexercised and with
`OptionAlreadyExercised` when it is already exercised. -/
theorem expired_exercise_fails (c : OptionContract) (L : ExLedger) (now : Int)
    (h : now > c.expiration) :
    runExercise c L now = ((c, L),
      some (.protocol
        (if c.is_exercised then .optionAlreadyExercised else .optionExpired))) := by
  cases hex : c.is_exercised with
  | true => simp [runExercise, exerciseOption, hex]
  | false => simp [runExercise, exerciseOption, hex, h]

/-- An unexercised contract already past its expiration. -/
def c3bContract : OptionContract :=
  { creator := 0, underlying_asset_mint := 0, strike_price := 5, expiration := 50,
    is_exercised := false, option_price := 0, amount := 1, bump := 0 }

theorem expired_exercise_fails_witness :
    (51 : Int) > c3bContract.expiration ∧
    runExercise c3bContract c3Ledger 51 =
      ((c3bContract, c3Ledger), some (.protocol .optionExpired)) := by
  refine ⟨by decide, ?_⟩
  have h := expired_exercise_fails c3bContract c3Ledger 51 (by decide)
  simpa using h

/-- `create_option` never reports `InvalidExpiration` from any branch other
than the leading `expiration <= now` check. -/
lemma createOption_not_invalidExpiration (p : OptionParams) (creator bump : Nat)
    (now : Int) (b1 b2 : Nat) (h : ¬ p.expiration ≤ now) :
    createOption p creator bump now b1 b2 ≠ .error (.protocol .invalidExpiration) := by
  unfold createOption
  rw [if_neg h]
  rcases hbs : blackScholesApprox p.current_price p.strike_price
      ((p.expiration - now).emod (2 ^ 64)).toNat p.risk_free_rate p.volatility with
    _ | price
  · simp [hbs]
  · rcases htr : splTransfer b1 b2 p.amount with _ | ⟨cb, eb⟩
    · simp [hbs, htr]
    · simp [hbs, htr]

/-- C8: `create_option` fails with `InvalidExpiration` exactly when the
requested expiration is at or before the clock reading, and on that
failure no contract record is persisted and no balance moves. -/
theorem create_invalid_expiration_iff (p : OptionParams) (creator bump : Nat)
    (now : Int) (b1 b2 : Nat) :
    ((runCreate p creator bump now b1 b2).2 = some (.protocol .invalidExpiration) ↔
      p.expiration ≤ now) ∧
    (p.expiration ≤ now →
      runCreate p creator bump now b1 b2 =
        ((none, b1, b2), some (.protocol .invalidExpiration))) := by
  by_cases h : p.expiration ≤ now
  · refine ⟨⟨fun _ => h, fun _ => ?_⟩, fun _ => ?_⟩ <;>
      simp [runCreate, createOption, h]
  · have hne := createOption_not_invalidExpiration p creator bump now b1 b2 h
    refine ⟨⟨fun habs => ?_, fun hle => absurd hle h⟩, fun hle => absurd hle h⟩
    unfold runCreate at habs
    rcases hco : createOption p creator bump now b1 b2 with e | s
    · rw [hco] at habs
      simp at habs
      exact absurd (hco.trans (by rw [habs])) hne
    · rw [hco] at habs
      simp at habs

/-- Concrete creation request with `expiration = 5` issued at `now = 10`. -/
def c8Params : OptionParams :=
  { underlying_asset_mint := 0, strike_asset_mint := 0, strike_price := 5,
    expiration := 5, current_price := 1, risk_free_rate := 0, volatility := 0,
    amount := 1 }

theorem create_invalid_expiration_witness :
    c8Params.expiration ≤ (10 : Int) ∧
    runCreate c8Params 0 0 10 7 0 = ((none, 7, 0), some (.protocol .invalidExpiration)) :=
  ⟨by decide, (create_invalid_expiration_iff c8Params 0 0 10 7 0).2 (by decide)⟩

/-! ## Math lemmas -/

/-- One year of seconds converts to the fixed-point value 1.0. -/
lemma tFp_year : tFp 31536000 = 1000000 := by norm_num [tFp, SCALE]

/-- The Babylonian loop stops immediately on the fixed-point value 1.0. -/
lemma sqrtFp_one : sqrtFp 1000000 = some 1000000 := by
  rw [sqrtFp]
  norm_num [M128, SCALE]
  rw [sqrtLoop]
  norm_num

/-- `sigma_sqrt_t` for a 100%-volatility, one-year option is 1.0. -/
lemma sigmaSqrtT_vol100_year : sigmaSqrtT 1000000 31536000 = some 1000000 := by
  rw [sigmaSqrtT, tFp_year, sqrtFp_one]
  norm_num [SCALE]

/-- The clamped normal CDF never exceeds `SCALE`. -/
lemma cdf_le_scale (d : Nat) : standardNormalCdf d ≤ SCALE := by
  simp only [standardNormalCdf]
  split
  · exact le_refl _
  · split <;> omega

/-- The truncated premium is at most the spot price: the `max(0, ..)` value
is bounded by `s_fp * nd1 / SCALE` with `nd1 ≤ SCALE`. -/
lemma cFp_div_le (s b nd1 : Nat) (hnd : nd1 ≤ SCALE) :
    (if s * SCALE * nd1 / SCALE ≥ b then s * SCALE * nd1 / SCALE - b else 0) / SCALE
      ≤ s := by
  have hcancel : s * SCALE * SCALE / SCALE = s * SCALE :=
    Nat.mul_div_cancel _ (by norm_num [SCALE])
  have h2 : s * SCALE * nd1 / SCALE ≤ s * SCALE := by
    calc s * SCALE * nd1 / SCALE ≤ s * SCALE * SCALE / SCALE :=
          Nat.div_le_div_right (Nat.mul_le_mul_left _ hnd)
      _ = s * SCALE := hcancel
  have hX : (if s * SCALE * nd1 / SCALE ≥ b then s * SCALE * nd1 / SCALE - b else 0)
      ≤ s * SCALE := by
    split
    · exact le_trans (Nat.sub_le _ _) h2
    · exact Nat.zero_le _
  calc (if s * SCALE * nd1 / SCALE ≥ b then s * SCALE * nd1 / SCALE - b else 0) / SCALE
      ≤ s * SCALE / SCALE := Nat.div_le_div_right hX
    _ = s := Nat.mul_div_cancel _ (by norm_num [SCALE])

/-- Whatever `premiumFp` returns is bounded by the spot input. -/
lemma premiumFp_le_spot (s k t r sigma q : Nat)
    (h : premiumFp s k t r sigma = some q) : q ≤ s := by
  simp only [premiumFp] at h
  rcases hq : chkDiv (s * SCALE * SCALE) (k * SCALE) with _ | sOverK
  · rw [hq, Option.none_bind] at h
    exact absurd h (by simp)
  · rw [hq, Option.some_bind] at h
    rcases hst : sigmaSqrtT sigma t with _ | sst
    · rw [hst, Option.none_bind] at h
      exact absurd h (by simp)
    · rw [hst, Option.some_bind] at h
      by_cases h0 : sst = 0
      · rw [if_pos h0] at h
        have : (0 : Nat) = q := by simpa using h
        omega
      · rw [if_neg h0] at h
        have hv := (Option.some_inj.mp h).symm
        subst hv
        exact cFp_div_le s _ _ (cdf_le_scale _)

/-! ## Claim theorems: math -/

/-- C4: the pricing path has no arithmetic-fault detection at all.  For a
spot below the strike, `ln_fp`'s input is 500000 < SCALE and the wrapping
subtraction silently produces an astronomically large "logarithm"; the
subtraction `d1 - sigma_sqrt_t` likewise wraps when `d1 < sigma_sqrt_t`;
the full pricing call still returns an ordinary value; and the protocol's
error enumeration does not even declare an `ArithmeticFault` variant. -/
theorem underflow_silently_wraps :
    lnFp 500000 = 340282366920938463463374606931768 ∧
    SCALE ≤ lnFp 500000 ∧
    wsub 1000000 2000000 = 2 ^ 128 - 1000000 ∧
    (blackScholesApprox 1 2 31536000 0 1000000).isSome = true ∧
    ∀ e : ProtocolError,
      e = .optionAlreadyExercised ∨ e = .optionExpired ∨
      e = .invalidExpiration ∨ e = .insufficientFunds := by
  refine ⟨by decide, by decide, by decide, ?_, fun e => by cases e <;> simp⟩
  unfold blackScholesApprox premiumFp
  rw [sigmaSqrtT_vol100_year]
  norm_num [chkDiv, SCALE]

/-- Follows the spec's words, for comparison with the code's discount
factor: the truncated exponential series `1 + x + x^2/2! + x^3/3!`
evaluated in fixed point at `x = -(r·t)`, i.e. the `e^{-r t}` the spec
prescribes for the strike term of the premium. -/
def specDiscountFactor (r t : Nat) : Int :=
  (SCALE : Int) - (rT r t : Int)
    + ((rT r t * rT r t / SCALE / 2 : Nat) : Int)
    - ((rT r t * rT r t / SCALE * rT r t / SCALE / 6 : Nat) : Int)

/-- C5: for a 5% rate over one year (`r_t = 50000`, i.e. 0.05), the code's
discount factor `exp_fp(SCALE - r_t)` is 2.544145 — the series evaluated
at `1 - r·t`, greater than one — while the truncated series applied to
`-r·t`, as the spec prescribes, gives 0.951230. -/
theorem discount_factor_mismatch :
    rT 50000 31536000 = 50000 ∧
    eMinusRt 50000 31536000 = 2544145 ∧
    specDiscountFactor 50000 31536000 = 951230 ∧
    (2544145 : Int) ≠ (951230 : Int) :=
  ⟨by decide, by decide, by decide, by decide⟩

/-- C6 counterexample: with zero volatility (so `sigma·sqrt(t) = 0`) but a
zero strike, the pricing call aborts on the ratio division by `k_fp = 0`
before reaching the zero-denominator guard, instead of returning 0. -/
theorem zero_denominator_trap_counterexample :
    sigmaSqrtT 0 0 = some 0 ∧ blackScholesApprox 1 0 0 0 0 = none :=
  ⟨by decide, by decide⟩

/-- C6 (amended): for a nonzero strike, whenever the computed
`sigma_sqrt_t` is zero the pricing call returns exactly 0 without
trapping; and the returned premium is never negative. -/
theorem zero_denominator_amended :
    (∀ s k t r sigma : Nat, k ≠ 0 → sigmaSqrtT sigma t = some 0 →
      blackScholesApprox s k t r sigma = some 0) ∧
    (∀ s k t r sigma p : Nat, blackScholesApprox s k t r sigma = some p → 0 ≤ p) := by
  constructor
  · intro s k t r sigma hk hsst
    have hkS : k * SCALE ≠ 0 := Nat.mul_ne_zero hk (by norm_num [SCALE])
    unfold blackScholesApprox premiumFp
    simp [chkDiv, hkS, hsst]
  · intro _ _ _ _ _ p _
    exact Nat.zero_le p

theorem zero_denominator_amended_witness :
    (3 : Nat) ≠ 0 ∧ sigmaSqrtT 0 0 = some 0 ∧
    blackScholesApprox 5 3 0 0 0 = some 0 :=
  ⟨by decide, by decide, zero_denominator_amended.1 5 3 0 0 0 (by decide) (by decide)⟩

/-- C7 counterexample: at `x = 2^128 - SCALE` the wrapping initial guess
`(x + SCALE) / 2` is 0, so the first loop iteration divides by zero and
the call aborts instead of terminating with a value. -/
theorem sqrt_trap_counterexample : sqrtFp (2 ^ 128 - 1000000) = none := by
  rw [sqrtFp]
  norm_num [M128, SCALE]
  rw [sqrtLoop]
  norm_num

/-- As long as `w ≠ 0` is even and the iterate stays in `[1, 2^127 - 1]`,
the Babylonian loop never divides by zero and returns a value. -/
lemma sqrtLoop_isSome (w : Nat) (hw : w ≠ 0) (hwM : w < M128) (hwe : 2 ∣ w) :
    ∀ z y : Nat, 1 ≤ y → y ≤ 2 ^ 127 - 1 → (sqrtLoop w z y).isSome = true := by
  have hM : M128 = 340282366920938463463374607431768211456 := by norm_num [M128]
  intro z
  induction z using Nat.strong_induction_on with
  | _ z ih =>
    intro y h1 h2
    rw [sqrtLoop]
    split
    case isFalse h => simp
    case isTrue h =>
      rw [if_neg (by omega : ¬ y = 0)]
      have hsum : w / y + y < M128 := by
        rcases Nat.lt_or_ge y 2 with hy | hy
        · have hy1 : y = 1 := by omega
          subst hy1
          obtain ⟨c, rfl⟩ := hwe
          simp only [Nat.div_one]
          omega
        · have h3 : w / y ≤ w / 2 := Nat.div_le_div_left hy (by omega)
          have h4 : w / 2 ≤ (M128 - 1) / 2 := Nat.div_le_div_right (by omega)
          omega
      have hmod : (w / y + y) % M128 = w / y + y := Nat.mod_eq_of_lt hsum
      have hge : 1 ≤ (w / y + y) % M128 / 2 := by
        rw [hmod]
        rcases Nat.lt_or_ge y 2 with hy | hy
        · have hy1 : y = 1 := by omega
          subst hy1
          simp only [Nat.div_one]
          omega
        · have h5 : y / 2 ≤ (w / y + y) / 2 := Nat.div_le_div_right (Nat.le_add_left y (w / y))
          omega
      have hle : (w / y + y) % M128 / 2 ≤ 2 ^ 127 - 1 := by
        rw [hmod]
        have h6 : (w / y + y) / 2 ≤ (M128 - 1) / 2 := Nat.div_le_div_right (by omega)
        omega
      exact ih y h _ hge hle

/-- C7 (amended): `sqrt_fp 0 = 0`; and for every input `x` whose initial
guess does not wrap (`x + SCALE < 2^128`) and whose wrapped `x * SCALE` is
nonzero, the Babylonian iteration terminates with a value.  (When
`x * SCALE` wraps to exactly 0 — `x` a nonzero multiple of `2^122` — the
iterate decays to 0 and the loop divides by zero, as it also does when the
initial guess wraps to 0.) -/
theorem sqrt_terminates_amended :
    sqrtFp 0 = some 0 ∧
    ∀ x : Nat, x + SCALE < M128 → x * SCALE % M128 ≠ 0 →
      (sqrtFp x).isSome = true := by
  refine ⟨rfl, ?_⟩
  intro x hxs hw
  have hM : M128 = 340282366920938463463374607431768211456 := by norm_num [M128]
  have hS : SCALE = 1000000 := rfl
  have hx : ¬ x = 0 := by
    rintro rfl
    simp [M128] at hw
  rw [sqrtFp, if_neg hx, Nat.mod_eq_of_lt hxs]
  apply sqrtLoop_isSome
  · exact hw
  · exact Nat.mod_lt _ (by omega)
  · have h2M : (2 : Nat) ∣ M128 := ⟨2 ^ 127, by norm_num [M128]⟩
    have h2x : (2 : Nat) ∣ x * SCALE := ⟨x * 500000, by rw [hS]; ring⟩
    have := Nat.mod_mod_of_dvd (x * SCALE) h2M
    omega
  · omega
  · omega

theorem sqrt_terminates_witness :
    1000000 + SCALE < M128 ∧ 1000000 * SCALE % M128 ≠ 0 ∧
    (sqrtFp 1000000).isSome = true :=
  ⟨by decide, by decide, sqrt_terminates_amended.2 1000000 (by decide) (by decide)⟩

/-- C9 counterexample: at `d_fp = 2^122` the product `d_fp * SCALE` wraps
to exactly 0 in `u128`, so the code returns 0.5 (500000) while the
clamped linear form of the claim is `SCALE` (1000000). -/
theorem normal_cdf_wrap_counterexample :
    standardNormalCdf (2 ^ 122) = 500000 ∧
    min SCALE (SCALE / 2 + 2 ^ 122 * SCALE / SQRT_2_PI) = 1000000 ∧
    (500000 : Nat) ≠ 1000000 :=
  ⟨by decide, by decide, by decide⟩

/-- C9 (amended): whenever `d_fp * SCALE` does not overflow `u128`, the
code returns exactly the linear form `SCALE/2 + d_fp*SCALE/sqrt(2*pi)`
clamped above to `SCALE` (the lower clamp is vacuous for an unsigned
value); and for every input whatsoever the result lies in `[0, SCALE]`. -/
theorem normal_cdf_amended :
    (∀ d : Nat, d * SCALE < M128 →
      standardNormalCdf d = min SCALE (SCALE / 2 + d * SCALE / SQRT_2_PI)) ∧
    ∀ d : Nat, standardNormalCdf d ≤ SCALE := by
  constructor
  · intro d hd
    simp only [standardNormalCdf]
    rw [Nat.mod_eq_of_lt hd]
    split
    case isTrue h => exact (min_eq_left (le_of_lt h)).symm
    case isFalse h =>
      split
      case isTrue h2 => exact absurd h2 (Nat.not_lt_zero _)
      case isFalse h2 => exact (min_eq_right (le_of_not_lt h)).symm
  · exact cdf_le_scale

theorem normal_cdf_amended_witness :
    (0 : Nat) * SCALE < M128 ∧
    standardNormalCdf 0 = min SCALE (SCALE / 2 + 0 * SCALE / SQRT_2_PI) :=
  ⟨by decide, normal_cdf_amended.1 0 (by decide)⟩

/-- C10: whenever the pricing call returns at all, the premium is at most
the spot input; and for any spot in `u64` range the final `as u64`
narrowing cast is the identity — the cast never truncates. -/
theorem premium_le_spot :
    (∀ s k t r sigma p : Nat, blackScholesApprox s k t r sigma = some p → p ≤ s) ∧
    (∀ s k t r sigma : Nat, s < M64 →
      blackScholesApprox s k t r sigma = premiumFp s k t r sigma) := by
  constructor
  · intro s k t r sigma p h
    unfold blackScholesApprox at h
    rcases hq : premiumFp s k t r sigma with _ | q
    · rw [hq] at h
      exact absurd h (by simp)
    · rw [hq] at h
      have hle := premiumFp_le_spot s k t r sigma q hq
      have hp : q % M64 = p := by simpa using h
      have hmod : q % M64 ≤ q := Nat.mod_le _ _
      omega
  · intro s k t r sigma hs
    unfold blackScholesApprox
    rcases hq : premiumFp s k t r sigma with _ | q
    · simp
    · have hle := premiumFp_le_spot s k t r sigma q hq
      simp [Nat.mod_eq_of_lt (lt_of_le_of_lt hle hs)]

theorem premium_le_spot_witness :
    blackScholesApprox 1 1 0 0 0 = some 0 ∧ (0 : Nat) ≤ 1 ∧
    (1 : Nat) < M64 ∧ blackScholesApprox 1 1 0 0 0 = premiumFp 1 1 0 0 0 :=
  ⟨by decide, premium_le_spot.1 1 1 0 0 0 0 (by decide), by decide,
   premium_le_spot.2 1 1 0 0 0 (by decide)⟩

end DDP
